import Mathlib

/-!
Shallow embedding of the `dom` interpreter core (crate `dom_core`, files
`src/ast.rs`, `src/environment.rs`, `src/interpreter.rs`) and of the list
builtins of crate `dom_std` (`src/list.rs`).

Modelling conventions:
* Rust `i32` values are Lean `Int`s; additive/multiplicative operators use
  32-bit wrapping (release-build semantics), division models the Rust
  panics on a zero divisor and on `i32::MIN / -1`.
* The shared mutable environment graph (`Arc<Mutex<Env>>`) is a `Store`:
  a list of nodes addressed by index; `Env::with_parent` appends a node.
* Fallible operations return `Except Sig Val` together with the store that
  results from the side effects performed up to the point of failure.
  `Sig.err` models `Result::Err` with an `InterpreterError`/`EnvError`;
  `Sig.brk`/`Sig.cont`/`Sig.ret` model the `Exception` control signals;
  `Sig.panic` models a Rust panic (process abort: `unreachable!`, integer
  division by zero, failed `expect`); `Sig.nofuel` is an artifact of the
  embedding (the recursion bound ran out) and corresponds to no behaviour
  of the source.
* The builtin registry is empty in every modelled run (no host registered
  builtins), so the builtin-dispatch branch of `_eval_call` always falls
  through; the `dom_std` list builtins are modelled separately as the
  standalone functions they are.  The `Use` statement and the host hooks
  (`ModuleHook`, `UseHook`) are outside the modelled fragment.
-/

namespace Dom

/-- `lexer.rs` `RelOp`. -/
inductive RelOp where
  | eq | notEq | greater | greaterEq | less | lessEq
deriving DecidableEq, Repr

/-- `ast.rs` `LogicOp`. -/
inductive LogicOp where
  | and | or
deriving DecidableEq, Repr

/-- `ast.rs` `BinaryOp`. -/
inductive BinaryOp where
  | add | sub | mul | div
deriving DecidableEq, Repr

/-- `ast.rs` `UnaryOp`. -/
inductive UnaryOp where
  | pos | neg | not
deriving DecidableEq, Repr

mutual
/-- `ast.rs` `Stmt` (spans dropped; `Use` is outside the modelled fragment).
`var`'s value is a statement, exactly as in `Var { value: Box<Stmt> }`. -/
inductive Stmt where
  | program (body : List Stmt)
  | cond (condition : Expr) (body : List Stmt)
  | func (ident : String) (params : List String) (body : List Stmt)
  | loop (body : List Stmt)
  | var (ident : String) (value : Stmt)
  | expr (e : Expr)

/-- `ast.rs` `ExprKind` (spans dropped). -/
inductive Expr where
  | assignment (assignee : Expr) (value : Expr)
  | pipe (left : Expr) (right : Expr)
  | call (caller : Expr) (args : List Expr)
  | list (items : List Expr)
  | str (value : String)
  | ident (name : String)
  | bool (value : Bool)
  | int (value : Int)
  | relOp (left : Expr) (right : Expr) (op : RelOp)
  | unaryOp (expr : Expr) (op : UnaryOp)
  | binaryOp (left : Expr) (right : Expr) (op : BinaryOp)
  | logicOp (left : Expr) (right : Expr) (op : LogicOp)
  | ret (value : Option Expr)
  | cont
  | brk
  | mod (module : Expr) (item : Expr)
end

/-- `environment.rs` `ValKind`.  `Func`'s captured environment and `Mod`'s
environment are store indices.  A list item is a full `Val`, i.e. a pair of
the optional bound identifier and a kind. -/
inductive ValKind where
  | none
  | bool (b : Bool)
  | int (n : Int)
  | str (s : String)
  | func (ident : String) (params : List String) (body : List Stmt) (env : Nat)
  | list (items : List (Option String × ValKind))
  | mod (env : Nat)

/-- `environment.rs` `Val`: the optional identifier the value was last bound
to, together with its kind. -/
abbrev Val := Option String × ValKind

/-- `Val::NONE`. -/
def Val.NONE : Val := (Option.none, ValKind.none)

/-- `Val::with_ident`. -/
def Val.withIdent (v : Val) (ident : String) : Val := (some ident, v.2)

/-- One `Env` node: its own bindings and its optional parent
(`environment.rs` `Env`; the shared builtin registry is empty in every
modelled run and is not represented). -/
structure EnvNode where
  values : List (String × Val)
  parent : Option Nat

/-- The heap of environment nodes; an `Arc<Mutex<Env>>` is an index into
`nodes`. -/
structure Store where
  nodes : List EnvNode

/-- `HashMap::get` on a bindings map (first matching key). -/
def lookupPairs : List (String × Val) → String → Option Val
  | [], _ => Option.none
  | (k, v) :: rest, n => if k = n then some v else lookupPairs rest n

/-- `HashMap::contains_key`. -/
def containsKey (m : List (String × Val)) (n : String) : Bool :=
  (lookupPairs m n).isSome

/-- `HashMap::insert`: replace the binding if the key is present, else add
it. -/
def upsert : List (String × Val) → String → Val → List (String × Val)
  | [], n, v => [(n, v)]
  | (k, w) :: rest, n, v =>
    if k = n then (n, v) :: rest else (k, w) :: upsert rest n v

/-- Dereference an environment handle. -/
def Store.getNode (s : Store) (i : Nat) : Option EnvNode :=
  s.nodes.get? i

/-- Replace the bindings map of node `i`. -/
def Store.setValues (s : Store) (i : Nat) (vals : List (String × Val)) : Store :=
  match s.nodes.get? i with
  | Option.none => s
  | some node => ⟨s.nodes.set i { node with values := vals }⟩

/-- `Env::with_parent`: allocate a fresh child node of `parent` with no
bindings; returns its handle and the grown store. -/
def Store.withParent (s : Store) (parent : Nat) : Nat × Store :=
  (s.nodes.length, ⟨s.nodes ++ [⟨[], some parent⟩]⟩)

/-- The error kinds of `InterpreterError` (interpreter.rs) and `EnvError`
(environment.rs); spans dropped.  The enums contain no arithmetic-error
variant. -/
inductive RtErr where
  | identifierAlreadyExists
  | identifierNotFound
  | invalidAssignmentIdentifier
  | unaryExpressionUnsupported
  | binaryExpressionUnsupported
  | logicalExpressionUnsupported
  | relationalExpressionUnsupported
  | callerNotDefined
  | invalidPipeCaller
  | mismatchedArgs
  | moduleNotFound
  | invalidModule
deriving DecidableEq, Repr

/-- Every way an evaluation step can fail to produce a value: a genuine
error (`Result::Err`), a control signal (`Exception`), a Rust panic, or
exhaustion of the embedding's recursion fuel. -/
inductive Sig where
  | err (e : RtErr)
  | brk
  | cont
  | ret (value : Option Expr)
  | panic
  | nofuel

/-- `Env::declare`: fails if `name` is bound in this node's own map,
otherwise inserts and returns the value tagged with `name`. -/
def Env.declare (s : Store) (i : Nat) (name : String) (v : Val) :
    Except Sig Val × Store :=
  match s.getNode i with
  | Option.none => ((Except.error Sig.panic), s)
  | some node =>
    if containsKey node.values name then
      (Except.error (Sig.err RtErr.identifierAlreadyExists), s)
    else
      let tagged : Val := v.withIdent name
      (Except.ok tagged, s.setValues i (upsert node.values name tagged))

/-- `Env::resolve`: walk this node then its parents; `some (some k)` is the
first node containing `name`, `some Option.none` is `IdentifierNotFound`,
`Option.none` means the fuel bound was hit (never happens on the acyclic
stores the interpreter builds when the fuel exceeds the chain depth). -/
def Env.resolve (s : Store) (name : String) : Nat → Nat → Option (Option Nat)
  | 0, _ => Option.none
  | fuel + 1, i =>
    match s.getNode i with
    | Option.none => Option.none
    | some node =>
      if containsKey node.values name then some (some i)
      else
        match node.parent with
        | some p => Env.resolve s name fuel p
        | Option.none => some Option.none

/-- `Env::assign`: resolve the nearest node containing `name`, overwrite
the binding there with `value` (not re-tagged), and return `value`;
`IdentifierNotFound` when no node in the chain has it. -/
def Env.assign (s : Store) (i : Nat) (name : String) (v : Val) (fuel : Nat) :
    Except Sig Val × Store :=
  match Env.resolve s name fuel i with
  | Option.none => (Except.error Sig.nofuel, s)
  | some Option.none => (Except.error (Sig.err RtErr.identifierNotFound), s)
  | some (some k) =>
    match s.getNode k with
    | Option.none => (Except.error Sig.panic, s)
    | some node => (Except.ok v, s.setValues k (upsert node.values name v))

/-- `Env::lookup`: resolve then read; the `expect` after a successful
resolve is modelled as a panic (it cannot fire). -/
def Env.lookup (s : Store) (i : Nat) (name : String) (fuel : Nat) :
    Except Sig Val :=
  match Env.resolve s name fuel i with
  | Option.none => Except.error Sig.nofuel
  | some Option.none => Except.error (Sig.err RtErr.identifierNotFound)
  | some (some k) =>
    match s.getNode k with
    | Option.none => Except.error Sig.panic
    | some node =>
      match lookupPairs node.values name with
      | some v => Except.ok v
      | Option.none => Except.error Sig.panic

/-- `i32::MIN`. -/
def I32MIN : Int := -2147483648

/-- `i32::MAX`. -/
def I32MAX : Int := 2147483647

/-- 32-bit two's-complement wrap-around, the release-build semantics of the
Rust `+`/`-`/`*`/unary `-` on `i32`. -/
def wrap32 (n : Int) : Int :=
  (n + 2147483648) % 4294967296 - 2147483648

/-- The `Int op Int` arm of `eval_binary_expr`: wrapping add/sub/mul, and
the raw `/`, which Rust aborts on for a zero divisor (and on
`i32::MIN / -1`); the enum has no recoverable arithmetic-error variant. -/
def intBinop (op : BinaryOp) (a b : Int) : Except Sig Int :=
  match op with
  | BinaryOp.add => Except.ok (wrap32 (a + b))
  | BinaryOp.sub => Except.ok (wrap32 (a - b))
  | BinaryOp.mul => Except.ok (wrap32 (a * b))
  | BinaryOp.div =>
    if b = 0 ∨ (a = I32MIN ∧ b = -1) then Except.error Sig.panic
    else Except.ok (Int.tdiv a b)

/-- `str::repeat`. -/
def strRepeat (s : String) : Nat → String
  | 0 => ""
  | n + 1 => s ++ strRepeat s n

/-- The relational table of `eval_rel_expr`: equality only on booleans and
strings, the six orderings on integers, everything else unsupported. -/
def relVal (op : RelOp) (a b : ValKind) : Except Sig Bool :=
  match a, b with
  | ValKind.bool x, ValKind.bool y =>
    match op with
    | RelOp.eq => Except.ok (x = y)
    | RelOp.notEq => Except.ok (x ≠ y)
    | _ => Except.error (Sig.err RtErr.relationalExpressionUnsupported)
  | ValKind.int x, ValKind.int y =>
    match op with
    | RelOp.eq => Except.ok (x = y)
    | RelOp.notEq => Except.ok (x ≠ y)
    | RelOp.greater => Except.ok (y < x)
    | RelOp.greaterEq => Except.ok (y ≤ x)
    | RelOp.less => Except.ok (x < y)
    | RelOp.lessEq => Except.ok (x ≤ y)
  | ValKind.str x, ValKind.str y =>
    match op with
    | RelOp.eq => Except.ok (x = y)
    | RelOp.notEq => Except.ok (x ≠ y)
    | _ => Except.error (Sig.err RtErr.relationalExpressionUnsupported)
  | _, _ => Except.error (Sig.err RtErr.relationalExpressionUnsupported)

/-- The non-`Int`/`Int` arms of `eval_binary_expr`: string concatenation
and non-negative string repetition. -/
def binVal (op : BinaryOp) (a b : ValKind) : Except Sig ValKind :=
  match a, b with
  | ValKind.int x, ValKind.int y => (intBinop op x y).map ValKind.int
  | ValKind.str x, ValKind.str y =>
    if op = BinaryOp.add then Except.ok (ValKind.str (x ++ y))
    else Except.error (Sig.err RtErr.binaryExpressionUnsupported)
  | ValKind.str x, ValKind.int y =>
    if op = BinaryOp.mul ∧ 0 ≤ y then Except.ok (ValKind.str (strRepeat x y.toNat))
    else Except.error (Sig.err RtErr.binaryExpressionUnsupported)
  | ValKind.int x, ValKind.str y =>
    if op = BinaryOp.mul ∧ 0 ≤ x then Except.ok (ValKind.str (strRepeat y x.toNat))
    else Except.error (Sig.err RtErr.binaryExpressionUnsupported)
  | _, _ => Except.error (Sig.err RtErr.binaryExpressionUnsupported)

/-- The `eval_unary_expr` table. -/
def unaryVal (op : UnaryOp) (v : Val) : Except Sig Val :=
  match v.2 with
  | ValKind.int n =>
    match op with
    | UnaryOp.pos => Except.ok v
    | UnaryOp.neg => Except.ok (Option.none, ValKind.int (wrap32 (-n)))
    | UnaryOp.not => Except.error (Sig.err RtErr.unaryExpressionUnsupported)
  | ValKind.bool b =>
    match op with
    | UnaryOp.not => Except.ok (Option.none, ValKind.bool (!b))
    | _ => Except.error (Sig.err RtErr.unaryExpressionUnsupported)
  | _ => Except.error (Sig.err RtErr.unaryExpressionUnsupported)

/-- Sequentially `declare` the parameters into the function's environment,
exactly the zip loop of `_eval_call` (the first failing `declare`
propagates). -/
def declareParams : List String → List Val → Nat → Store →
    Except Sig Unit × Store
  | [], _, _, s => (Except.ok (), s)
  | _ :: _, [], _, s => (Except.ok (), s)
  | p :: ps, a :: as, fenv, s =>
    match Env.declare s fenv p a with
    | (Except.ok _, s1) => declareParams ps as fenv s1
    | (Except.error g, s1) => (Except.error g, s1)

/-- Outcome of running one loop iteration's statements
(`eval_loop`'s inner `for`): fall through or `Continue` (run the next
iteration), `Break` (the loop is done), or anything else (propagates). -/
inductive LoopStep where
  | next (last : Option Val)
  | done (last : Option Val)
  | out (g : Sig)

mutual

/-- `Interpreter::eval`: the dispatcher.  The first argument is the
embedding's recursion fuel; every recursive evaluation costs one unit. -/
def eval : Nat → Stmt → Nat → Store → Except Sig Val × Store
  | 0, _, _, s => (Except.error Sig.nofuel, s)
  | k + 1, stmt, env, s =>
    match stmt with
    | Stmt.program body => evalBody k body env s Val.NONE
    | Stmt.cond c body => evalCond k c body env s
    | Stmt.func ident params body => evalFunc k ident params body env s
    | Stmt.loop body => evalLoop k body env s Option.none
    | Stmt.var ident value => evalVar k ident value env s
    | Stmt.expr e =>
      match e with
      | Expr.assignment assignee value => evalAssign k assignee value env s
      | Expr.pipe l r => evalPipe k l r env s
      | Expr.call caller args => evalCall k caller args env s
      | Expr.list items => evalList k items env s
      | Expr.logicOp l r op => evalLogic k l r op env s
      | Expr.relOp l r op => evalRel k l r op env s
      | Expr.unaryOp e1 op => evalUnary k e1 op env s
      | Expr.binaryOp l r op => evalBinary k l r op env s
      | Expr.ident name => (Env.lookup s env name (s.nodes.length + 1), s)
      | Expr.bool b => (Except.ok (Option.none, ValKind.bool b), s)
      | Expr.int n => (Except.ok (Option.none, ValKind.int n), s)
      | Expr.str t => (Except.ok (Option.none, ValKind.str t), s)
      | Expr.ret v => (Except.error (Sig.ret v), s)
      | Expr.cont => (Except.error Sig.cont, s)
      | Expr.brk => (Except.error Sig.brk, s)
      | Expr.mod m item => evalModExpr k m item env s

termination_by structural k _ _ _ => k

/-- `eval_body`: statements in order, tracking the last value; the first
failure propagates with the effects performed so far. -/
def evalBody : Nat → List Stmt → Nat → Store → Val → Except Sig Val × Store
  | 0, _, _, s, _ => (Except.error Sig.nofuel, s)
  | _ + 1, [], _, s, last => (Except.ok last, s)
  | k + 1, stmt :: rest, env, s, last =>
    match eval k stmt env s with
    | (Except.ok v, s1) =>
      let _ := last
      evalBody k rest env s1 v
    | r => r

termination_by structural k _ _ _ _ => k

/-- `eval_cond`: the condition must reduce to `Bool` (anything else hits
`unreachable!`, a panic); a true condition runs the body in a fresh child
of `env`. -/
def evalCond : Nat → Expr → List Stmt → Nat → Store → Except Sig Val × Store
  | 0, _, _, _, s => (Except.error Sig.nofuel, s)
  | k + 1, c, body, env, s =>
    match eval k (Stmt.expr c) env s with
    | (Except.ok v, s1) =>
      match v.2 with
      | ValKind.bool true =>
        let (cid, s2) := s1.withParent env
        evalBody k body cid s2 Val.NONE
      | ValKind.bool false => (Except.ok Val.NONE, s1)
      | _ => (Except.error Sig.panic, s1)
    | r => r

termination_by structural k _ _ _ _ => k

/-- `eval_func`: build the `Func` value, whose captured environment is a
child of the defining environment created once, here, then `declare` it. -/
def evalFunc : Nat → String → List String → List Stmt → Nat → Store →
    Except Sig Val × Store
  | 0, _, _, _, _, s => (Except.error Sig.nofuel, s)
  | _ + 1, ident, params, body, env, s =>
    let (cid, s1) := s.withParent env
    Env.declare s1 env ident (Option.none, ValKind.func ident params body cid)

/-- `eval_loop`: run iterations forever, each in a fresh child of the
loop's environment, carrying `last` across iterations; `Break` returns
`last` (or `None` when nothing ever completed). -/
def evalLoop : Nat → List Stmt → Nat → Store → Option Val →
    Except Sig Val × Store
  | 0, _, _, s, _ => (Except.error Sig.nofuel, s)
  | k + 1, body, env, s, last =>
    let (cid, s1) := s.withParent env
    match evalLoopBody k body cid s1 last with
    | (LoopStep.next l, s2) => evalLoop k body env s2 l
    | (LoopStep.done l, s2) => (Except.ok (l.getD Val.NONE), s2)
    | (LoopStep.out g, s2) => (Except.error g, s2)

termination_by structural k _ _ _ _ => k

/-- The inner `for` of `eval_loop` over one iteration's statements:
`Continue` ends the iteration, `Break` ends the loop, any other failure
propagates out of the loop. -/
def evalLoopBody : Nat → List Stmt → Nat → Store → Option Val →
    LoopStep × Store
  | 0, _, _, s, _ => (LoopStep.out Sig.nofuel, s)
  | _ + 1, [], _, s, last => (LoopStep.next last, s)
  | k + 1, stmt :: rest, env, s, last =>
    match eval k stmt env s with
    | (Except.ok v, s1) => evalLoopBody k rest env s1 (some v)
    | (Except.error Sig.cont, s1) => (LoopStep.next last, s1)
    | (Except.error Sig.brk, s1) => (LoopStep.done last, s1)
    | (Except.error g, s1) => (LoopStep.out g, s1)

termination_by structural k _ _ _ _ => k

/-- `eval_var`: evaluate the value, then `declare` it in `env`. -/
def evalVar : Nat → String → Stmt → Nat → Store → Except Sig Val × Store
  | 0, _, _, _, s => (Except.error Sig.nofuel, s)
  | k + 1, ident, value, env, s =>
    match eval k value env s with
    | (Except.ok v, s1) => Env.declare s1 env ident v
    | r => r

termination_by structural k _ _ _ _ => k

/-- `eval_assign`: the assignee must be a bare identifier; evaluate the
value, then `Env::assign`. -/
def evalAssign : Nat → Expr → Expr → Nat → Store → Except Sig Val × Store
  | 0, _, _, _, s => (Except.error Sig.nofuel, s)
  | k + 1, assignee, value, env, s =>
    match assignee with
    | Expr.ident name =>
      match eval k (Stmt.expr value) env s with
      | (Except.ok v, s1) => Env.assign s1 env name v (s1.nodes.length + 1)
      | r => r
    | _ => (Except.error (Sig.err RtErr.invalidAssignmentIdentifier), s)

termination_by structural k _ _ _ _ => k

/-- `eval_pipe_expr`: the right-hand side must be a `Call`; prepend the
left expression to its arguments. -/
def evalPipe : Nat → Expr → Expr → Nat → Store → Except Sig Val × Store
  | 0, _, _, _, s => (Except.error Sig.nofuel, s)
  | k + 1, l, r, env, s =>
    match r with
    | Expr.call caller args => evalCall k caller (l :: args) env s
    | _ => (Except.error (Sig.err RtErr.invalidPipeCaller), s)

termination_by structural k _ _ _ _ => k

/-- `eval_call`: evaluate every argument, left to right, in the current
environment, then resolve the caller. -/
def evalCall : Nat → Expr → List Expr → Nat → Store → Except Sig Val × Store
  | 0, _, _, _, s => (Except.error Sig.nofuel, s)
  | k + 1, caller, args, env, s =>
    match evalArgs k args env s with
    | (Except.ok vals, s1) => evalCallResolved k caller vals env env s1
    | (Except.error g, s1) => (Except.error g, s1)

termination_by structural k _ _ _ _ => k

/-- The argument collection loop shared by `eval_call` and
`eval_list_expr`. -/
def evalArgs : Nat → List Expr → Nat → Store → Except Sig (List Val) × Store
  | 0, _, _, s => (Except.error Sig.nofuel, s)
  | _ + 1, [], _, s => (Except.ok [], s)
  | k + 1, e :: rest, env, s =>
    match eval k (Stmt.expr e) env s with
    | (Except.ok v, s1) =>
      match evalArgs k rest env s1 with
      | (Except.ok vs, s2) => (Except.ok (v :: vs), s2)
      | (Except.error g, s2) => (Except.error g, s2)
    | (Except.error g, s1) => (Except.error g, s1)

termination_by structural k _ _ _ => k

/-- `_eval_call`: a module-access caller switches the module environment; a
builtin would be consulted in `mod_env` (the registry is empty in every
modelled run, so this falls through); otherwise the caller must evaluate to
a `Func`, whose parameters are declared directly into its captured
environment, and whose body runs there intercepting `Return`. -/
def evalCallResolved : Nat → Expr → List Val → Nat → Nat → Store →
    Except Sig Val × Store
  | 0, _, _, _, _, s => (Except.error Sig.nofuel, s)
  | k + 1, caller, args, env, modEnv, s =>
    match caller with
    | Expr.mod module item =>
      match lookupModule k module env s with
      | (Except.ok mid, s1) => evalCallResolved k item args env mid s1
      | (Except.error g, s1) => (Except.error g, s1)
    | _ =>
      let _ := modEnv
      match eval k (Stmt.expr caller) env s with
      | (Except.ok v, s1) =>
        match v.2 with
        | ValKind.func _ params body fenv =>
          if args.length ≠ params.length then
            (Except.error (Sig.err RtErr.mismatchedArgs), s1)
          else
            match declareParams params args fenv s1 with
            | (Except.ok _, s2) => evalCallBody k body fenv s2 Option.none
            | (Except.error g, s2) => (Except.error g, s2)
        | _ => (Except.error (Sig.err RtErr.callerNotDefined), s1)
      | (Except.error g, s1) => (Except.error g, s1)

termination_by structural k _ _ _ _ _ => k

/-- The body loop of `_eval_call`: statements in order, a `Return` signal
stops early (its optional expression is evaluated in the call's
environment), anything else propagates. -/
def evalCallBody : Nat → List Stmt → Nat → Store → Option Val →
    Except Sig Val × Store
  | 0, _, _, s, _ => (Except.error Sig.nofuel, s)
  | _ + 1, [], _, s, last => (Except.ok (last.getD Val.NONE), s)
  | k + 1, stmt :: rest, env, s, last =>
    match eval k stmt env s with
    | (Except.ok v, s1) => evalCallBody k rest env s1 (some v)
    | (Except.error (Sig.ret value), s1) =>
      match value with
      | some e =>
        match eval k (Stmt.expr e) env s1 with
        | (Except.ok v, s2) => (Except.ok v, s2)
        | r => r
      | Option.none =>
        let _ := last
        (Except.ok Val.NONE, s1)
    | (Except.error g, s1) => (Except.error g, s1)

termination_by structural k _ _ _ _ => k

/-- `eval_list_expr`. -/
def evalList : Nat → List Expr → Nat → Store → Except Sig Val × Store
  | 0, _, _, s => (Except.error Sig.nofuel, s)
  | k + 1, items, env, s =>
    match evalArgs k items env s with
    | (Except.ok vals, s1) => (Except.ok (Option.none, ValKind.list vals), s1)
    | (Except.error g, s1) => (Except.error g, s1)

termination_by structural k _ _ _ => k

/-- `eval_logic_expr`: both operands are evaluated before anything is
inspected; both must be `Bool`. -/
def evalLogic : Nat → Expr → Expr → LogicOp → Nat → Store →
    Except Sig Val × Store
  | 0, _, _, _, _, s => (Except.error Sig.nofuel, s)
  | k + 1, l, r, op, env, s =>
    match eval k (Stmt.expr l) env s with
    | (Except.ok lv, s1) =>
      match eval k (Stmt.expr r) env s1 with
      | (Except.ok rv, s2) =>
        match lv.2, rv.2 with
        | ValKind.bool a, ValKind.bool b =>
          (Except.ok (Option.none, ValKind.bool
            (match op with
             | LogicOp.and => a && b
             | LogicOp.or => a || b)), s2)
        | _, _ =>
          (Except.error (Sig.err RtErr.logicalExpressionUnsupported), s2)
      | r1 => r1
    | r1 => r1

termination_by structural k _ _ _ _ _ => k

/-- `eval_rel_expr`. -/
def evalRel : Nat → Expr → Expr → RelOp → Nat → Store →
    Except Sig Val × Store
  | 0, _, _, _, _, s => (Except.error Sig.nofuel, s)
  | k + 1, l, r, op, env, s =>
    match eval k (Stmt.expr l) env s with
    | (Except.ok lv, s1) =>
      match eval k (Stmt.expr r) env s1 with
      | (Except.ok rv, s2) =>
        match relVal op lv.2 rv.2 with
        | Except.ok b => (Except.ok (Option.none, ValKind.bool b), s2)
        | Except.error g => (Except.error g, s2)
      | r1 => r1
    | r1 => r1

termination_by structural k _ _ _ _ _ => k

/-- `eval_unary_expr`. -/
def evalUnary : Nat → Expr → UnaryOp → Nat → Store →
    Except Sig Val × Store
  | 0, _, _, _, s => (Except.error Sig.nofuel, s)
  | k + 1, e, op, env, s =>
    match eval k (Stmt.expr e) env s with
    | (Except.ok v, s1) =>
      match unaryVal op v with
      | Except.ok w => (Except.ok w, s1)
      | Except.error g => (Except.error g, s1)
    | r1 => r1

termination_by structural k _ _ _ _ => k

/-- `eval_binary_expr`. -/
def evalBinary : Nat → Expr → Expr → BinaryOp → Nat → Store →
    Except Sig Val × Store
  | 0, _, _, _, _, s => (Except.error Sig.nofuel, s)
  | k + 1, l, r, op, env, s =>
    match eval k (Stmt.expr l) env s with
    | (Except.ok lv, s1) =>
      match eval k (Stmt.expr r) env s1 with
      | (Except.ok rv, s2) =>
        match binVal op lv.2 rv.2 with
        | Except.ok kind => (Except.ok (Option.none, kind), s2)
        | Except.error g => (Except.error g, s2)
      | r1 => r1
    | r1 => r1

termination_by structural k _ _ _ _ _ => k

/-- `eval_mod_expr`: resolve the module, then evaluate the item inside the
module's environment. -/
def evalModExpr : Nat → Expr → Expr → Nat → Store → Except Sig Val × Store
  | 0, _, _, _, s => (Except.error Sig.nofuel, s)
  | k + 1, module, item, env, s =>
    match lookupModule k module env s with
    | (Except.ok mid, s1) => eval k (Stmt.expr item) mid s1
    | (Except.error g, s1) => (Except.error g, s1)

termination_by structural k _ _ _ _ => k

/-- `lookup_module`: the module expression must evaluate to a `Mod`
value. -/
def lookupModule : Nat → Expr → Nat → Store → Except Sig Nat × Store
  | 0, _, _, s => (Except.error Sig.nofuel, s)
  | k + 1, module, env, s =>
    match eval k (Stmt.expr module) env s with
    | (Except.ok v, s1) =>
      match v.2 with
      | ValKind.mod mid => (Except.ok mid, s1)
      | _ => (Except.error (Sig.err RtErr.invalidModule), s1)
    | (Except.error g, s1) => (Except.error g, s1)


termination_by structural k _ _ _ => k
end

/-- Modelled from the words of claim C6, for comparison with `evalLoop`
(which carries `last` across iterations exactly as the source does): here
the candidate result value is iteration-local — reset at the start of every
iteration — so that on `Break` the loop's value is the value of the last
statement executed in the iteration that was active when the loop ended. -/
def evalLoopIterationLocal : Nat → List Stmt → Nat → Store →
    Except Sig Val × Store
  | 0, _, _, s => (Except.error Sig.nofuel, s)
  | k + 1, body, env, s =>
    let (cid, s1) := s.withParent env
    match evalLoopBody k body cid s1 Option.none with
    | (LoopStep.next _, s2) => evalLoopIterationLocal k body env s2
    | (LoopStep.done l, s2) => (Except.ok (l.getD Val.NONE), s2)
    | (LoopStep.out g, s2) => (Except.error g, s2)

/-! ## The `dom_std` list builtins (`dom_std/src/list.rs`)

`to_wrapped_index` computes `(len + self) % len` over `i32` after casting
the list length down to `i32`; the builtins then index the cloned list with
the result cast to `usize`.  `Option.none`/`Except.error ()` model a Rust
panic (the failed `expect`, the remainder by zero, an out-of-bounds
`list[index]`/`remove`); `Except.ok Option.none` models a builtin that
returns `Option::None`.  The `i32` addition is modelled with release-build
wrap-around, consistently with the interpreter's arithmetic. -/

/-- `index as usize` for an `i32` value: two's-complement reinterpretation
into the 64-bit unsigned range. -/
def usizeOfI32 (i : Int) : Nat :=
  (i % 18446744073709551616).toNat

/-- `Int32Ext::to_wrapped_index`.  `Option.none` models a panic: the
`i32::try_from(len).expect(..)` on an oversized length, or the `% 0` on an
empty list. -/
def toWrappedIndex (index : Int) (len : Nat) : Option Int :=
  if I32MAX < (len : Int) then Option.none
  else if (len : Int) = 0 then Option.none
  else some (Int.tmod (wrap32 ((len : Int) + index)) (len : Int))

/-- `GetFn::run` on a `(list, index)` argument pair: `list.get(i).cloned()`
is total, so the only panic source is `to_wrapped_index`. -/
def GetFn.run (list : List Val) (index : Int) : Except Unit (Option Val) :=
  match toWrappedIndex index list.length with
  | Option.none => Except.error ()
  | some idx => Except.ok (list.get? (usizeOfI32 idx))

/-- The list manipulation of `SetFn::run` (the optional write-back through
the carried identifier is independent of the indexing behaviour):
`list[index] = value` panics when the wrapped index is out of bounds. -/
def SetFn.runList (list : List Val) (index : Int) (v : Val) :
    Except Unit (List Val) :=
  match toWrappedIndex index list.length with
  | Option.none => Except.error ()
  | some idx =>
    let u := usizeOfI32 idx
    if u < list.length then Except.ok (list.set u v) else Except.error ()

/-- The list manipulation of `PopFn::run`: `list.remove(index)` panics when
the wrapped index is out of bounds. -/
def PopFn.runList (list : List Val) (index : Int) : Except Unit (List Val) :=
  match toWrappedIndex index list.length with
  | Option.none => Except.error ()
  | some idx =>
    let u := usizeOfI32 idx
    if u < list.length then Except.ok (list.eraseIdx u) else Except.error ()

/-! ## Concrete fixtures used by the claim theorems -/

/-- The key list of every node of a store: what "no new binding is ever
created" quantifies over. -/
def storeKeys (s : Store) : List (List String) :=
  s.nodes.map (fun n => n.values.map Prod.fst)

/-- A fresh root environment, as at program start. -/
def store0 : Store := ⟨[⟨[], Option.none⟩]⟩

/-- `fn f(x) { x }  f(1)` — a single call of a one-parameter function. -/
def reentryProgOne : Stmt :=
  Stmt.program
    [Stmt.func "f" ["x"] [Stmt.expr (Expr.ident "x")],
     Stmt.expr (Expr.call (Expr.ident "f") [Expr.int 1])]

/-- `fn f(x) { x }  f(1)  f(2)` — the same function called twice. -/
def reentryProg : Stmt :=
  Stmt.program
    [Stmt.func "f" ["x"] [Stmt.expr (Expr.ident "x")],
     Stmt.expr (Expr.call (Expr.ident "f") [Expr.int 1]),
     Stmt.expr (Expr.call (Expr.ident "f") [Expr.int 2])]

/-- The loop body `if x == 1 { break }  x = 1  42`: its second iteration
breaks before completing any statement. -/
def loopCexBody : List Stmt :=
  [Stmt.cond (Expr.relOp (Expr.ident "x") (Expr.int 1) RelOp.eq)
     [Stmt.expr Expr.brk],
   Stmt.expr (Expr.assignment (Expr.ident "x") (Expr.int 1)),
   Stmt.expr (Expr.int 42)]

/-- `var x = 0  loop { if x == 1 { break }  x = 1  42 }`. -/
def loopCexProg : Stmt :=
  Stmt.program [Stmt.var "x" (Stmt.expr (Expr.int 0)), Stmt.loop loopCexBody]

/-- `var x = 0  loop { if x == 2 { break }  var y = 5  x = x + 1 }`: the
statement `var y = 5` executes in two consecutive iterations (x goes
0 → 1 → 2, the third iteration breaks), so if an iteration's bindings
survived into the next iteration, the second `var y` would fail with
`IdentifierAlreadyExists`; with a fresh child per iteration the program
completes with the value of the last assignment, `2`. -/
def loopLocalsProg : Stmt :=
  Stmt.program
    [Stmt.var "x" (Stmt.expr (Expr.int 0)),
     Stmt.loop
       [Stmt.cond (Expr.relOp (Expr.ident "x") (Expr.int 2) RelOp.eq)
          [Stmt.expr Expr.brk],
        Stmt.var "y" (Stmt.expr (Expr.int 5)),
        Stmt.expr (Expr.assignment (Expr.ident "x")
          (Expr.binaryOp (Expr.ident "x") (Expr.int 1) BinaryOp.add))]]

/-- `var x = 0  loop { if x == 1 { break }  x = 1  if true { continue }
zz }`: the undeclared `zz` is only reachable if `continue` failed to end
the iteration. -/
def loopContinueProg : Stmt :=
  Stmt.program
    [Stmt.var "x" (Stmt.expr (Expr.int 0)),
     Stmt.loop
       [Stmt.cond (Expr.relOp (Expr.ident "x") (Expr.int 1) RelOp.eq)
          [Stmt.expr Expr.brk],
        Stmt.expr (Expr.assignment (Expr.ident "x") (Expr.int 1)),
        Stmt.cond (Expr.bool true) [Stmt.expr Expr.cont],
        Stmt.expr (Expr.ident "zz")]]

/-- `loop { 7  if true { break } }`. -/
def loopBreakValProg : Stmt :=
  Stmt.program
    [Stmt.loop
       [Stmt.expr (Expr.int 7),
        Stmt.cond (Expr.bool true) [Stmt.expr Expr.brk]]]

/-- `loop { break }` — no statement ever completes. -/
def loopNoStmtProg : Stmt :=
  Stmt.program [Stmt.loop [Stmt.expr Expr.brk]]

/-- `fn g() { loop { return 9 } }  g()` — `Return` must cross the loop. -/
def loopReturnProg : Stmt :=
  Stmt.program
    [Stmt.func "g" [] [Stmt.loop [Stmt.expr (Expr.ret (some (Expr.int 9)))]],
     Stmt.expr (Expr.call (Expr.ident "g") [])]

/-- `loop { nope }` — an error inside the body must leave the loop. -/
def loopErrProg : Stmt :=
  Stmt.program [Stmt.loop [Stmt.expr (Expr.ident "nope")]]

/-- A two-node chain: the root binds `x`, its child binds only `y`. -/
def chainStore : Store :=
  ⟨[⟨[("x", (some "x", ValKind.int 0))], Option.none⟩,
    ⟨[("y", (some "y", ValKind.int 7))], some 0⟩]⟩

/-- The single-node store with `x ↦ 0` used by the assign counterexample. -/
def assignCexStore : Store :=
  ⟨[⟨[("x", (some "x", ValKind.int 0))], Option.none⟩]⟩

/-- A root store binding `b` to `false`, for the logic-operator
side-effect demonstration. -/
def boolStore : Store :=
  ⟨[⟨[("b", (some "b", ValKind.bool false))], Option.none⟩]⟩

/-- The list value `[1, 2, 3]`. -/
def l123 : List Val :=
  [(Option.none, ValKind.int 1), (Option.none, ValKind.int 2),
   (Option.none, ValKind.int 3)]

end Dom

namespace Dom

/-! ## Helper lemmas about the bindings maps and the store -/

theorem lookupPairs_upsert_self (m : List (String × Val)) (n : String) (v : Val) :
    lookupPairs (upsert m n v) n = some v := by
  induction m with
  | nil => simp [upsert, lookupPairs]
  | cons hd tl ih =>
    cases hd with
    | mk k w =>
      by_cases h : k = n
      · simp [upsert, h, lookupPairs]
      · simp [upsert, h, lookupPairs, ih]

theorem containsKey_upsert_self (m : List (String × Val)) (n : String) (v : Val) :
    containsKey (upsert m n v) n = true := by
  simp [containsKey, lookupPairs_upsert_self]

theorem upsert_keys_of_contains (m : List (String × Val)) (n : String) (v : Val)
    (h : containsKey m n = true) :
    (upsert m n v).map Prod.fst = m.map Prod.fst := by
  induction m with
  | nil => simp [containsKey, lookupPairs] at h
  | cons hd tl ih =>
    cases hd with
    | mk k w =>
      by_cases hk : k = n
      · simp [upsert, hk]
      · simp [containsKey, lookupPairs, hk] at h
        simp [upsert, hk, ih h]

theorem set_get?_self {α : Type} (l : List α) (i : Nat) (a : α)
    (h : l.get? i = some a) : l.set i a = l := by
  apply List.ext_get?
  intro n
  by_cases hn : i = n
  · subst hn
    rw [List.get?_set_eq]
    simp only [List.get?_eq_getElem?] at h ⊢
    rw [h]
    rfl
  · rw [List.get?_set_ne _ _ hn]

theorem get?_set_self {α : Type} (l : List α) (i : Nat) (a : α)
    (h : i < l.length) : (l.set i a).get? i = some a := by
  rw [List.get?_set_eq]
  simp only [List.get?_eq_getElem?]
  rw [List.getElem?_eq_getElem h]
  rfl

theorem getNode_setValues_self (s : Store) (i : Nat) (node : EnvNode)
    (vals : List (String × Val)) (h : s.getNode i = some node) :
    (s.setValues i vals).getNode i = some { node with values := vals } := by
  have hlen : i < s.nodes.length := by
    unfold Store.getNode at h
    obtain ⟨hlt, -⟩ := List.get?_eq_some.mp h
    exact hlt
  unfold Store.setValues
  unfold Store.getNode at h ⊢
  rw [h]
  exact get?_set_self _ _ _ (by simpa using hlen)

theorem storeKeys_setValues (s : Store) (i : Nat) (node : EnvNode)
    (vals : List (String × Val)) (h : s.getNode i = some node)
    (hk : vals.map Prod.fst = node.values.map Prod.fst) :
    storeKeys (s.setValues i vals) = storeKeys s := by
  unfold Store.getNode at h
  unfold storeKeys Store.setValues
  rw [h, List.map_set]
  apply set_get?_self
  rw [List.get?_map, h]
  simp [hk]

theorem resolve_found (s : Store) (name : String) :
    ∀ fuel i k, Env.resolve s name fuel i = some (some k) →
      ∃ node, s.getNode k = some node ∧ containsKey node.values name = true := by
  intro fuel
  induction fuel with
  | zero =>
    intro i k h
    simp [Env.resolve] at h
  | succ f ih =>
    intro i k h
    unfold Env.resolve at h
    split at h
    · simp at h
    · rename_i node hn
      split at h
      · rename_i hc
        obtain rfl : i = k := by simpa using h
        exact ⟨node, hn, hc⟩
      · split at h
        · rename_i p hp
          exact ih p k h
        · simp at h

end Dom

namespace Dom

/-! ## Claim C4 — `Env::assign` -/

/-- Claim C4, counterexample: on a store whose root binds `x`,
`assign("x", 1)` succeeds but returns the value with its identifier slot
unchanged (`Option.none`); the claim states the returned value is tagged
with the name, i.e. equals `(some "x", 1)`, which it does not. -/
theorem assign_returns_untagged_value :
    (Env.assign assignCexStore 0 "x" (Option.none, ValKind.int 1) 2).1 =
      Except.ok ((Option.none : Option String), ValKind.int 1) ∧
    (Except.ok ((Option.none : Option String), ValKind.int 1) :
        Except Sig Val) ≠
      Except.ok ((some "x" : Option String), ValKind.int 1) := by
  refine ⟨rfl, ?_⟩
  simp

/-- Claim C4 (amended): `assign(name, value)` walks this node then its
ancestors; on the first node already containing `name` it overwrites the
binding there and returns the value unchanged (it does not re-tag it with
the name); it fails with `IdentifierNotFound` when no node in the chain
contains the name, leaving the store untouched; and it never creates a new
binding — the key lists of every node are preserved. -/
theorem assign_overwrites_nearest_no_new_binding
    (s : Store) (i : Nat) (name : String) (v : Val) (fuel : Nat) :
    (∀ k node, Env.resolve s name fuel i = some (some k) →
        s.getNode k = some node →
        Env.assign s i name v fuel =
          (Except.ok v, s.setValues k (upsert node.values name v)) ∧
        containsKey node.values name = true ∧
        storeKeys (s.setValues k (upsert node.values name v)) = storeKeys s) ∧
    (Env.resolve s name fuel i = some Option.none →
      Env.assign s i name v fuel =
        (Except.error (Sig.err RtErr.identifierNotFound), s)) := by
  constructor
  · intro k node hres hget
    obtain ⟨node', hget', hc'⟩ := resolve_found s name fuel i k hres
    have hnode : node' = node := by
      rw [hget] at hget'
      exact (Option.some.inj hget').symm
    subst hnode
    refine ⟨by simp [Env.assign, hres, hget], hc', ?_⟩
    exact storeKeys_setValues s k node' _ hget
      (upsert_keys_of_contains _ _ _ hc')
  · intro hres
    simp [Env.assign, hres]

/-- Claim C4, witness: in the two-node chain whose root binds `x`,
assigning `x` from the child overwrites the root binding, returns the
untagged value, and preserves every node's key list. -/
theorem assign_overwrites_nearest_witness :
    Env.assign chainStore 1 "x" (Option.none, ValKind.int 5) 3 =
      (Except.ok ((Option.none : Option String), ValKind.int 5),
       chainStore.setValues 0
         (upsert [("x", (some "x", ValKind.int 0))] "x"
           (Option.none, ValKind.int 5))) ∧
    storeKeys
        (chainStore.setValues 0
          (upsert [("x", (some "x", ValKind.int 0))] "x"
            (Option.none, ValKind.int 5))) =
      storeKeys chainStore := by
  have h := (assign_overwrites_nearest_no_new_binding chainStore 1 "x"
      (Option.none, ValKind.int 5) 3).1 0
      ⟨[("x", (some "x", ValKind.int 0))], Option.none⟩ rfl rfl
  exact ⟨h.1, h.2.2⟩

/-! ## Claim C5 — `Env::declare` and `Env::lookup` -/

/-- Claim C5: `declare(name, value)` fails with `IdentifierAlreadyExists`
exactly when the name is already bound in this node's own bindings —
ancestor bindings play no role, so a child can shadow a parent; otherwise
it inserts the value tagged with the name, returns it, and a subsequent
lookup of that name in the same scope returns the declared value. -/
theorem declare_shadows_and_lookup (s : Store) (i : Nat) (name : String)
    (v : Val) (node : EnvNode) (h : s.getNode i = some node) :
    (containsKey node.values name = true →
      Env.declare s i name v =
        (Except.error (Sig.err RtErr.identifierAlreadyExists), s)) ∧
    (containsKey node.values name = false →
      Env.declare s i name v =
        (Except.ok (v.withIdent name),
         s.setValues i (upsert node.values name (v.withIdent name))) ∧
      Env.lookup (s.setValues i (upsert node.values name (v.withIdent name)))
          i name 1 = Except.ok (v.withIdent name)) := by
  constructor
  · intro hc
    simp [Env.declare, h, hc]
  · intro hc
    refine ⟨by simp [Env.declare, h, hc], ?_⟩
    have hupd := getNode_setValues_self s i node
      (upsert node.values name (v.withIdent name)) h
    simp [Env.lookup, Env.resolve, hupd, containsKey_upsert_self,
      lookupPairs_upsert_self]

/-- Claim C5, witness: in the two-node chain whose root binds `x` and whose
child binds only `y`, declaring `x` in the child succeeds (shadowing the
parent) and a lookup in that scope returns the tagged value; declaring `x`
again at the root, which already binds it, fails. -/
theorem declare_shadows_witness :
    (Env.declare chainStore 1 "x" (Option.none, ValKind.int 9) =
      (Except.ok (Val.withIdent (Option.none, ValKind.int 9) "x"),
       chainStore.setValues 1
         (upsert [("y", (some "y", ValKind.int 7))] "x"
           (Val.withIdent (Option.none, ValKind.int 9) "x"))) ∧
     Env.lookup
        (chainStore.setValues 1
          (upsert [("y", (some "y", ValKind.int 7))] "x"
            (Val.withIdent (Option.none, ValKind.int 9) "x"))) 1 "x" 1 =
       Except.ok (Val.withIdent (Option.none, ValKind.int 9) "x")) ∧
    Env.declare chainStore 0 "x" (Option.none, ValKind.int 9) =
      (Except.error (Sig.err RtErr.identifierAlreadyExists), chainStore) := by
  refine ⟨?_, ?_⟩
  · exact (declare_shadows_and_lookup chainStore 1 "x"
      (Option.none, ValKind.int 9)
      ⟨[("y", (some "y", ValKind.int 7))], some 0⟩ rfl).2 rfl
  · exact (declare_shadows_and_lookup chainStore 0 "x"
      (Option.none, ValKind.int 9)
      ⟨[("x", (some "x", ValKind.int 0))], Option.none⟩ rfl).1 rfl

end Dom

namespace Dom

/-! ## Claim C1 — one scope per call -/

/-- Claim C1 (code bug): with `fn f(x) { x }`, the call `f(1)` succeeds,
but running `f(1)` and then `f(2)` fails with `IdentifierAlreadyExists`:
`_eval_call` declares the parameters directly into the closure's single
captured environment, created once at definition time by `eval_func`, so
the second call finds `x` already bound — there is no fresh child scope
per call. -/
theorem second_call_of_same_function_fails :
    (eval 32 reentryProgOne 0 store0).1 =
      Except.ok ((some "x" : Option String), ValKind.int 1) ∧
    (eval 32 reentryProg 0 store0).1 =
      Except.error (Sig.err RtErr.identifierAlreadyExists) :=
  ⟨rfl, rfl⟩

/-! ## Claim C2 — integer division -/

/-- Claim C2 (code bug): `7 / 2` evaluates to `3` (truncating), but `5 / 0`
reaches the raw Rust `lhs / rhs`, which panics — the process aborts; no
recoverable arithmetic error exists in the interpreter's error enums. -/
theorem division_truncates_and_zero_divisor_panics :
    (eval 8 (Stmt.program
        [Stmt.expr (Expr.binaryOp (Expr.int 7) (Expr.int 2) BinaryOp.div)])
        0 store0).1 =
      Except.ok ((Option.none : Option String), ValKind.int 3) ∧
    (eval 8 (Stmt.program
        [Stmt.expr (Expr.binaryOp (Expr.int 5) (Expr.int 0) BinaryOp.div)])
        0 store0).1 =
      Except.error Sig.panic :=
  ⟨rfl, rfl⟩

/-! ## Claim C3 — conditional evaluation -/

/-- Claim C3 (code bug): a `Bool false` condition yields `None`; a
`Bool true` condition evaluates the body in a fresh child (its value is
returned, and a `var` declared inside does not leak into the enclosing
environment); but a non-`Bool` condition such as `if 1 { }` hits the
`unreachable!` in `eval_cond` — a panic, not an error result. -/
theorem cond_nonbool_condition_panics :
    (eval 8 (Stmt.program [Stmt.cond (Expr.int 1) []]) 0 store0).1 =
      Except.error Sig.panic ∧
    (eval 8 (Stmt.program [Stmt.cond (Expr.bool false) []]) 0 store0).1 =
      Except.ok Val.NONE ∧
    (eval 8 (Stmt.program
        [Stmt.cond (Expr.bool true) [Stmt.expr (Expr.int 7)]]) 0 store0).1 =
      Except.ok ((Option.none : Option String), ValKind.int 7) ∧
    (eval 16 (Stmt.program
        [Stmt.cond (Expr.bool true) [Stmt.var "y" (Stmt.expr (Expr.int 1))],
         Stmt.expr (Expr.ident "y")]) 0 store0).1 =
      Except.error (Sig.err RtErr.identifierNotFound) :=
  ⟨rfl, rfl, rfl, rfl⟩

/-! ## Claim C6 — loop semantics -/

/-- Claim C6, counterexample: running
`var x = 0  loop { if x == 1 { break }  x = 1  42 }` yields `42`, a value
produced in the first iteration; replaying the same loop from the same
pre-loop store under the claim's reading — the result value tracked only
within the iteration that was active when the loop ended — yields `None`,
because the breaking iteration completes no statement.  So the loop's
value is not the value of the last statement executed in the iteration
that was active when the loop ended. -/
theorem loop_value_not_iteration_local :
    (eval 64 loopCexProg 0 store0).1 =
      Except.ok ((Option.none : Option String), ValKind.int 42) ∧
    (evalLoopIterationLocal 64 loopCexBody 0 assignCexStore).1 =
      Except.ok Val.NONE ∧
    (Except.ok Val.NONE : Except Sig Val) ≠
      Except.ok ((Option.none : Option String), ValKind.int 42) := by
  refine ⟨rfl, rfl, ?_⟩
  simp [Val.NONE]

/-- Claim C6 (amended): each iteration runs in a fresh child of the loop's
environment — `loopLocalsProg` declares the same iteration-local `var y`
in two consecutive iterations and succeeds, which is impossible if one
environment were reused across iterations; `continue` ends the iteration
(statements after it are not reached), `break` ends the loop, `return`
and errors propagate out; the loop's value is the value of the last
statement that completed in any iteration before the loop ended — not
necessarily in the final iteration — and a loop in which no statement
ever completes evaluates to `None`. -/
theorem loop_behaviour_demos :
    (eval 64 loopLocalsProg 0 store0).1 =
      Except.ok ((Option.none : Option String), ValKind.int 2) ∧
    (eval 64 loopContinueProg 0 store0).1 =
      Except.ok ((Option.none : Option String), ValKind.int 1) ∧
    (eval 64 loopBreakValProg 0 store0).1 =
      Except.ok ((Option.none : Option String), ValKind.int 7) ∧
    (eval 64 loopNoStmtProg 0 store0).1 = Except.ok Val.NONE ∧
    (eval 64 loopReturnProg 0 store0).1 =
      Except.ok ((Option.none : Option String), ValKind.int 9) ∧
    (eval 64 loopErrProg 0 store0).1 =
      Except.error (Sig.err RtErr.identifierNotFound) :=
  ⟨rfl, rfl, rfl, rfl, rfl, rfl⟩

/-! ## Claim C7 — logical operators evaluate both sides -/

/-- Claim C7: `eval_logic_expr` evaluates the left operand and then always
the right operand — the final store is the store `s2` produced by the
right operand's evaluation in every outcome, including when the left
operand alone determines an `And`/`Or` result and when a non-`Bool`
operand makes the expression fail with `LogicalExpressionUnsupported`. -/
theorem logic_evaluates_both_operands (k : Nat) (l r : Expr) (op : LogicOp)
    (env : Nat) (s s1 s2 : Store) (lv rv : Val)
    (hl : eval k (Stmt.expr l) env s = (Except.ok lv, s1))
    (hr : eval k (Stmt.expr r) env s1 = (Except.ok rv, s2)) :
    evalLogic (k + 1) l r op env s =
      match lv.2, rv.2 with
      | ValKind.bool a, ValKind.bool b =>
        (Except.ok ((Option.none : Option String), ValKind.bool
          (match op with
           | LogicOp.and => a && b
           | LogicOp.or => a || b)), s2)
      | _, _ =>
        (Except.error (Sig.err RtErr.logicalExpressionUnsupported), s2) := by
  simp only [evalLogic, hl, hr]

/-- Claim C7, witness: in `false && (b = true)` the left operand already
determines the result `false`, yet the assignment on the right fires: the
final store binds `b` to `true`. -/
theorem logic_both_operands_witness :
    evalLogic 4 (Expr.bool false)
        (Expr.assignment (Expr.ident "b") (Expr.bool true)) LogicOp.and 0
        boolStore =
      (Except.ok ((Option.none : Option String), ValKind.bool false),
       (⟨[⟨[("b", (Option.none, ValKind.bool true))], Option.none⟩]⟩ :
         Store)) :=
  logic_evaluates_both_operands 3 (Expr.bool false)
    (Expr.assignment (Expr.ident "b") (Expr.bool true)) LogicOp.and 0
    boolStore boolStore
    ⟨[⟨[("b", (Option.none, ValKind.bool true))], Option.none⟩]⟩
    ((Option.none : Option String), ValKind.bool false)
    ((Option.none : Option String), ValKind.bool true) rfl rfl

/-! ## Claim C8 — pipe rewriting -/

/-- Claim C8: a pipe whose right-hand side is a call evaluates exactly as
the call with the left expression prepended as the first argument (the
pipe dispatch itself costs the embedding one extra fuel unit, hence
`k + 2` against `k + 1`); a pipe whose right-hand side is any other
expression shape fails with `InvalidPipeCaller`. -/
theorem pipe_rewrites_to_call (k : Nat) (l r : Expr) (env : Nat) (s : Store) :
    eval (k + 2) (Stmt.expr (Expr.pipe l r)) env s =
      match r with
      | Expr.call caller args =>
        eval (k + 1) (Stmt.expr (Expr.call caller (l :: args))) env s
      | _ => (Except.error (Sig.err RtErr.invalidPipeCaller), s) := by
  cases r <;> rfl

end Dom

namespace Dom

/-! ## Arithmetic helpers for the wrapped-index claims -/

theorem wrap32_eq_self (n : Int) (h1 : I32MIN ≤ n) (h2 : n ≤ I32MAX) :
    wrap32 n = n := by
  unfold wrap32 I32MIN I32MAX at *
  rw [Int.emod_eq_of_lt (by omega) (by omega)]
  omega

theorem tmod_neg_bounds (a b : Int) (ha : a < 0) (hb : 0 < b)
    (hnd : ¬ b ∣ a) : -b < Int.tmod a b ∧ Int.tmod a b < 0 := by
  obtain ⟨m, hm⟩ := Int.eq_negSucc_of_lt_zero ha
  obtain ⟨n, hn⟩ := Int.eq_ofNat_of_zero_le (le_of_lt hb)
  subst hm
  subst hn
  have hrfl : Int.tmod (Int.negSucc m) (n : Int) =
      -(((m + 1) % n : Nat) : Int) := rfl
  have h0 : Int.tmod (Int.negSucc m) (n : Int) ≠ 0 := fun h =>
    hnd (Int.dvd_iff_tmod_eq_zero.mpr h)
  have hnpos : 0 < n := by exact_mod_cast hb
  have hmod : (m + 1) % n < n := Nat.mod_lt _ hnpos
  rw [hrfl] at h0 ⊢
  constructor <;> omega

theorem tmod_add_self_emod (lenZ i : Int) (h : 0 ≤ lenZ)
    (ha : 0 ≤ lenZ + i) : Int.tmod (lenZ + i) lenZ = i % lenZ := by
  rw [Int.tmod_eq_emod ha h]
  have he : lenZ + i = i + lenZ * 1 := by ring
  rw [he, Int.add_mul_emod_self_left]

/-! ## Claim C9 — `list.get` index wrapping -/

/-- Claim C9, counterexample: for the non-empty list `[1, 2, 3]` of length
3 and the index `-4`, wrapping modulo the length would select element
`3` (index 2); instead `(3 + -4) % 3 = -1`, the `usize` cast makes it
huge, `list.get` returns `Option::None`, and the builtin returns no
element. -/
theorem list_get_below_neg_len_returns_none :
    GetFn.run l123 (-4) = Except.ok Option.none ∧
    (Except.ok Option.none : Except Unit (Option Val)) ≠
      Except.ok (some ((Option.none : Option String), ValKind.int 3)) := by
  refine ⟨rfl, ?_⟩
  simp

/-- The `as usize` reinterpretation of a negative in-range `i32` value:
two's complement adds `2^64`. -/
theorem usizeOfI32_neg (x : Int) (h1 : -2147483648 ≤ x) (h2 : x < 0) :
    usizeOfI32 x = (x + 18446744073709551616).toNat := by
  unfold usizeOfI32
  rw [show x % 18446744073709551616 =
      (x + 18446744073709551616 * 1) % 18446744073709551616 from
    (Int.add_mul_emod_self_left x 18446744073709551616 1).symm]
  rw [Int.emod_eq_of_lt (by omega) (by omega)]
  norm_num

/-- Claim C9 (amended): on a non-empty list of length `n` (with `n` and
`n + i` inside the `i32` range), `get(list, i)` returns the element at
index `i mod n` whenever `i ≥ -n` — in particular that index is in
bounds — and also whenever `n` divides `i` (the wrap then lands exactly
on index `0 = i mod n`); but for `i < -n` with `n` not dividing `i` the
wrapped index is negative, the `usize` cast sends it past the end, and
`get` returns no element at all instead of the `i mod n` one. -/
theorem list_get_wraps_modulo (list : List Val) (i : Int)
    (hne : list ≠ []) (hlen : (list.length : Int) ≤ I32MAX)
    (hlo : I32MIN ≤ (list.length : Int) + i)
    (hhi : (list.length : Int) + i ≤ I32MAX) :
    (-(list.length : Int) ≤ i →
      GetFn.run list i =
        Except.ok (list.get? (i % (list.length : Int)).toNat) ∧
      (i % (list.length : Int)).toNat < list.length) ∧
    (i < -(list.length : Int) → ¬ ((list.length : Int) ∣ i) →
      GetFn.run list i = Except.ok Option.none) ∧
    (i < -(list.length : Int) → (list.length : Int) ∣ i →
      GetFn.run list i =
        Except.ok (list.get? (i % (list.length : Int)).toNat)) := by
  have hpos : 0 < (list.length : Int) := by
    have h := List.length_pos.mpr hne
    exact_mod_cast h
  have hwrap : wrap32 ((list.length : Int) + i) = (list.length : Int) + i :=
    wrap32_eq_self _ hlo hhi
  have hwi0 : toWrappedIndex i list.length =
      some (Int.tmod ((list.length : Int) + i) (list.length : Int)) := by
    unfold toWrappedIndex
    rw [if_neg (by omega : ¬ I32MAX < (list.length : Int)),
      if_neg (by omega : ¬ (list.length : Int) = 0), hwrap]
  refine ⟨?_, ?_, ?_⟩
  · intro hge
    have ha : 0 ≤ (list.length : Int) + i := by omega
    have htmod : Int.tmod ((list.length : Int) + i) (list.length : Int) =
        i % (list.length : Int) :=
      tmod_add_self_emod _ _ (le_of_lt hpos) ha
    have hmodlt : i % (list.length : Int) < (list.length : Int) :=
      Int.emod_lt_of_pos _ hpos
    have hmodnn : 0 ≤ i % (list.length : Int) :=
      Int.emod_nonneg _ (ne_of_gt hpos)
    have husize : usizeOfI32 (i % (list.length : Int)) =
        (i % (list.length : Int)).toNat := by
      unfold usizeOfI32
      rw [Int.emod_eq_of_lt hmodnn (by unfold I32MAX at hlen; omega)]
    refine ⟨?_, by omega⟩
    simp [GetFn.run, hwi0, htmod, husize]
  · intro hlt hnd
    have haneg : (list.length : Int) + i < 0 := by omega
    have hnd' : ¬ ((list.length : Int) ∣ ((list.length : Int) + i)) :=
      fun hd => hnd ((dvd_add_right (dvd_refl _)).mp hd)
    obtain ⟨hgt, hlt0⟩ :=
      tmod_neg_bounds ((list.length : Int) + i) (list.length : Int)
        haneg hpos hnd'
    have husize : usizeOfI32
        (Int.tmod ((list.length : Int) + i) (list.length : Int)) =
        (Int.tmod ((list.length : Int) + i) (list.length : Int) +
          18446744073709551616).toNat :=
      usizeOfI32_neg _ (by unfold I32MAX at hlen; omega) hlt0
    simp only [GetFn.run, hwi0]
    rw [List.get?_eq_none.mpr (by rw [husize]; unfold I32MAX at hlen; omega)]
  · intro hlt hdvd
    have htz : Int.tmod ((list.length : Int) + i) (list.length : Int) = 0 :=
      Int.tmod_eq_zero_of_dvd (dvd_add (dvd_refl _) hdvd)
    have hez : i % (list.length : Int) = 0 := Int.emod_eq_zero_of_dvd hdvd
    have husize0 : usizeOfI32 0 = 0 := by norm_num [usizeOfI32]
    simp [GetFn.run, hwi0, htz, husize0, hez]

/-- Claim C9, witness: the spec's two examples `get([1,2,3], 0) = 1` and
`get([1,2,3], -1) = 3`, plus one instance of each `i < -n` regime:
`get([1,2,3], -4)` returns no element, while `get([1,2,3], -6)` (a
multiple of the length) wraps to index `0` and returns element `1`. -/
theorem list_get_wrap_examples :
    GetFn.run l123 0 =
      Except.ok (some ((Option.none : Option String), ValKind.int 1)) ∧
    GetFn.run l123 (-1) =
      Except.ok (some ((Option.none : Option String), ValKind.int 3)) ∧
    GetFn.run l123 (-4) = Except.ok Option.none ∧
    GetFn.run l123 (-6) =
      Except.ok (some ((Option.none : Option String), ValKind.int 1)) := by
  refine ⟨(((list_get_wraps_modulo l123 0 ?_ ?_ ?_ ?_).1 ?_).1).trans rfl,
    (((list_get_wraps_modulo l123 (-1) ?_ ?_ ?_ ?_).1 ?_).1).trans rfl,
    (list_get_wraps_modulo l123 (-4) ?_ ?_ ?_ ?_).2.1 ?_ ?_,
    ((list_get_wraps_modulo l123 (-6) ?_ ?_ ?_ ?_).2.2 ?_ ?_).trans rfl⟩ <;>
    first
      | exact List.cons_ne_nil _ _
      | norm_num [l123, I32MAX, I32MIN]

end Dom

namespace Dom

/-! ## Claim C10 — totality of the wrapped index -/

/-- Claim C10, counterexample: for the index `-6` and length 3 we have
`-6 < -3`, yet the wrapped result `(3 + -6) % 3` is `0` — not negative —
so `set` and `pop` do not index out of bounds: both succeed, operating on
element `0`.  (The claim is also refuted on the other side: index `5` with
length 3 is outside `-len ≤ index < len` yet wraps in-bounds to `2`.) -/
theorem wrapped_index_neg_multiple_is_zero :
    ((-6 : Int) < -((l123.length : Nat) : Int)) ∧
    toWrappedIndex (-6) l123.length = some 0 ∧
    SetFn.runList l123 (-6) (Option.none, ValKind.int 9) =
      Except.ok [(Option.none, ValKind.int 9), (Option.none, ValKind.int 2),
        (Option.none, ValKind.int 3)] ∧
    PopFn.runList l123 (-6) =
      Except.ok [(Option.none, ValKind.int 2),
        (Option.none, ValKind.int 3)] ∧
    toWrappedIndex 5 l123.length = some 2 := by
  refine ⟨by norm_num [l123], rfl, rfl, rfl, rfl⟩

/-- Claim C10 (amended): within the `i32` range, the wrapping computes
`(len + index) % len` over 32-bit integers; for an empty list the
remainder divides by zero and the builtin panics instead of returning;
for `index < -len` with `len` NOT dividing `index`, the wrapped result is
negative, the `usize` cast sends it far past the end, and `set` and `pop`
panic out of bounds.  (When `len` divides `index` the wrapped result is
`0` and the builtins touch element 0 instead — see the counterexample.) -/
theorem wrapped_index_partiality (list : List Val) (i : Int) (v : Val)
    (hlen : (list.length : Int) ≤ I32MAX)
    (hlo : I32MIN ≤ (list.length : Int) + i)
    (hhi : (list.length : Int) + i ≤ I32MAX) :
    (toWrappedIndex i list.length =
      if (list.length : Int) = 0 then Option.none
      else some (Int.tmod ((list.length : Int) + i) (list.length : Int))) ∧
    (list = [] →
      SetFn.runList [] i v = Except.error () ∧
      PopFn.runList [] i = Except.error ()) ∧
    (i < -(list.length : Int) → ¬ ((list.length : Int) ∣ i) →
      Int.tmod ((list.length : Int) + i) (list.length : Int) < 0 ∧
      SetFn.runList list i v = Except.error () ∧
      PopFn.runList list i = Except.error ()) := by
  have hwrap : wrap32 ((list.length : Int) + i) = (list.length : Int) + i :=
    wrap32_eq_self _ hlo hhi
  have hpart1 : toWrappedIndex i list.length =
      if (list.length : Int) = 0 then Option.none
      else some (Int.tmod ((list.length : Int) + i) (list.length : Int)) := by
    unfold toWrappedIndex
    rw [if_neg (by omega : ¬ I32MAX < (list.length : Int)), hwrap]
  have hempty : toWrappedIndex i 0 = Option.none := by
    unfold toWrappedIndex
    rw [if_neg (by unfold I32MAX; omega : ¬ I32MAX < ((0 : Nat) : Int))]
    simp
  refine ⟨hpart1, ?_, ?_⟩
  · intro hnil
    constructor
    · unfold SetFn.runList
      simp [hempty]
    · unfold PopFn.runList
      simp [hempty]
  · intro hi hnd
    by_cases hz : list.length = 0
    · obtain rfl : list = [] := List.length_eq_zero.mp hz
      refine ⟨?_, ?_, ?_⟩
      · simp only [List.length_nil, Nat.cast_zero, Int.tmod_zero] at hi ⊢
        omega
      · unfold SetFn.runList
        simp [hempty]
      · unfold PopFn.runList
        simp [hempty]
    · have hpos : 0 < (list.length : Int) := by
        have h := Nat.pos_of_ne_zero hz
        exact_mod_cast h
      have haneg : (list.length : Int) + i < 0 := by omega
      have hnd' : ¬ ((list.length : Int) ∣ ((list.length : Int) + i)) :=
        fun hd => hnd ((dvd_add_right (dvd_refl _)).mp hd)
      obtain ⟨hgt, hlt0⟩ :=
        tmod_neg_bounds ((list.length : Int) + i) (list.length : Int)
          haneg hpos hnd'
      have hwi : toWrappedIndex i list.length =
          some (Int.tmod ((list.length : Int) + i) (list.length : Int)) := by
        rw [hpart1, if_neg (by omega : ¬ (list.length : Int) = 0)]
      refine ⟨hlt0, ?_, ?_⟩
      all_goals
        have hidx : Int.tmod ((list.length : Int) + i) (list.length : Int) %
            18446744073709551616 =
            Int.tmod ((list.length : Int) + i) (list.length : Int) +
              18446744073709551616 := by
          have he : Int.tmod ((list.length : Int) + i) (list.length : Int) +
              18446744073709551616 =
              Int.tmod ((list.length : Int) + i) (list.length : Int) +
                18446744073709551616 * 1 := by ring
          rw [← Int.add_mul_emod_self_left
            (Int.tmod ((list.length : Int) + i) (list.length : Int))
            18446744073709551616 1]
          rw [Int.emod_eq_of_lt (by unfold I32MAX at hlen; omega)
            (by unfold I32MAX at hlen; omega)]
          omega
        have hnlt : ¬ usizeOfI32
            (Int.tmod ((list.length : Int) + i) (list.length : Int)) <
            list.length := by
          unfold usizeOfI32
          rw [hidx]
          unfold I32MAX at hlen
          omega
      · unfold SetFn.runList
        rw [hwi]
        simp [hnlt]
      · unfold PopFn.runList
        rw [hwi]
        simp [hnlt]

/-- Claim C10, witness: for `[1,2,3]` and index `-4` (below `-len`, not a
multiple of the length) the wrapped result is negative and both `set` and
`pop` panic; for the empty list both panic on the remainder by zero. -/
theorem wrapped_index_partiality_witness :
    (Int.tmod ((l123.length : Int) + (-4)) (l123.length : Int) < 0 ∧
     SetFn.runList l123 (-4) (Option.none, ValKind.int 9) =
       Except.error () ∧
     PopFn.runList l123 (-4) = Except.error ()) ∧
    (SetFn.runList [] (-4) (Option.none, ValKind.int 9) =
       Except.error () ∧
     PopFn.runList [] (-4) = Except.error ()) := by
  constructor
  · exact (wrapped_index_partiality l123 (-4) (Option.none, ValKind.int 9)
      (by norm_num [l123, I32MAX]) (by norm_num [l123, I32MIN])
      (by norm_num [l123, I32MAX])).2.2
      (by norm_num [l123]) (by norm_num [l123])
  · exact (wrapped_index_partiality ([] : List Val) (-4)
      (Option.none, ValKind.int 9)
      (by norm_num [I32MAX]) (by norm_num [I32MIN])
      (by norm_num [I32MAX])).2.1 rfl

end Dom
